import Mathlib

/-!
Verification development for the scout-tdl kanban/calendar-sync application.

The definitions below are a shallow embedding of `src/kanban_db.py`,
`src/calendar_sync_auto.py` and the calendar backend modules
(`calendar_sync_ical.py`, `calendar_sync_outlook.py`, `calendar_sync_google.py`,
`calendar_sync_apple.py`).  Python `None`-able fields become `Option`,
exceptions become `Except`/`Option` results, the single on-disk JSON document
becomes an explicit store value threaded through the operations, and
`datetime` instants are modelled as whole seconds (`Int`) with an
order-preserving string codec standing in for ISO-8601 rendering/parsing.
-/

namespace ScoutTDL

/-! ## Enumerations (kanban_db.py, `Priority` / `Status`) -/

inductive Priority
  | low
  | medium
  | high
  | top_priority
deriving DecidableEq, Repr

/-- Python `priority.name`, used by `to_dict` and `Priority[...]` lookup. -/
def Priority.pname : Priority → String
  | .low => "LOW"
  | .medium => "MEDIUM"
  | .high => "HIGH"
  | .top_priority => "TOP_PRIORITY"

/-- Python `Priority[name]`; `none` models the `KeyError` on an unknown name. -/
def Priority.fromName (s : String) : Option Priority :=
  if s = "LOW" then some .low
  else if s = "MEDIUM" then some .medium
  else if s = "HIGH" then some .high
  else if s = "TOP_PRIORITY" then some .top_priority
  else none

inductive Status
  | todo
  | in_progress
  | review
  | done
deriving DecidableEq, Repr, Fintype

/-- Python `status.value`. -/
def Status.value : Status → String
  | .todo => "todo"
  | .in_progress => "in_progress"
  | .review => "review"
  | .done => "done"

/-- Python `Status(value)`; `none` models the `ValueError` on an unknown value. -/
def Status.fromValue (s : String) : Option Status :=
  if s = "todo" then some .todo
  else if s = "in_progress" then some .in_progress
  else if s = "review" then some .review
  else if s = "done" then some .done
  else none

/-! ## Datetime model

`datetime` instants are whole seconds (`Int`).  `isoformat`/`fromisoformat`
are an injective codec between instants and their timestamp strings; ISO-8601
strings of the fixed width the code produces compare lexicographically exactly
as their instants compare, so string comparison on timestamps is modelled by
integer comparison after decoding. -/

def digitVal (c : Char) : Option Nat :=
  if '0' ≤ c ∧ c ≤ '9' then some (c.toNat - 48) else none

def parseDigits : List Char → Nat → Option Nat
  | [], acc => some acc
  | c :: cs, acc =>
    match digitVal c with
    | some d => parseDigits cs (acc * 10 + d)
    | none => none

/-- Model of `datetime.isoformat()`: render an instant as a string. -/
def isoformat (t : Int) : String := toString t

/-- Model of `datetime.fromisoformat`: `none` models the `ValueError` raised on
a malformed timestamp string. -/
def fromisoformat (s : String) : Option Int :=
  match s.data with
  | [] => none
  | '-' :: c :: cs => (parseDigits (c :: cs) 0).map (fun n => -(n : Int))
  | l => (parseDigits l 0).map (fun n => (n : Int))

/-- Python string comparison (lexicographic on code points), strict version. -/
def strLtL : List Char → List Char → Bool
  | [], [] => false
  | [], _ :: _ => true
  | _ :: _, [] => false
  | a :: as, b :: bs => if a < b then true else if b < a then false else strLtL as bs

def strLe (x y : String) : Bool := !(strLtL y.data x.data)

/-! ## Python truthiness for optional fields -/

/-- Truthiness of a `str | None` value: `None` and `""` are falsy. -/
def optStrTruthy : Option String → Bool
  | none => false
  | some s => s ≠ ""

/-- Truthiness of an `int | None` value: `None` and `0` are falsy. -/
def optIntTruthy : Option Int → Bool
  | none => false
  | some n => n ≠ 0

/-! ## KanbanItem (kanban_db.py lines 30-74) -/

structure KanbanItem where
  id : String
  title : String
  status : Status
  priority : Priority
  due_date : Option String
  description : String
  created_at : String
  completed_at : Option String
  time_to_complete : Option Int
  tags : List String
deriving DecidableEq, Repr

/-- Shape of one record of the persisted JSON document (the dict produced by
`KanbanItem.to_dict`). -/
structure ItemDict where
  id : String
  title : String
  status : String
  priority : String
  due_date : Option String
  description : String
  created_at : String
  completed_at : Option String
  time_to_complete : Option Int
  tags : List String
deriving DecidableEq, Repr

def KanbanItem.to_dict (it : KanbanItem) : ItemDict :=
  { id := it.id
    title := it.title
    status := it.status.value
    priority := it.priority.pname
    due_date := it.due_date
    description := it.description
    created_at := it.created_at
    completed_at := it.completed_at
    time_to_complete := it.time_to_complete
    tags := it.tags }

/-- `KanbanItem.from_dict` followed by the constructor.  The constructor's
`created_at or datetime.now().isoformat()` default makes the result depend on
the current time when the stored string is falsy, hence the `now` argument;
`tags or []` is the identity on lists.  `none` models the `ValueError` /
`KeyError` raised by `Status(...)` / `Priority[...]` on an unknown name. -/
def KanbanItem.from_dict (now : String) (d : ItemDict) : Option KanbanItem :=
  match Status.fromValue d.status, Priority.fromName d.priority with
  | none, _ => none
  | _, none => none
  | some st, some pr =>
    some { id := d.id
           title := d.title
           status := st
           priority := pr
           due_date := d.due_date
           description := d.description
           created_at := if d.created_at = "" then now else d.created_at
           completed_at := d.completed_at
           time_to_complete := d.time_to_complete
           tags := d.tags }

/-- `Option`-valued traversal used for loading the persisted records and
parsing the completion timestamps: the first failing element aborts
(the code's uncaught exception). -/
def optionMapM (f : α → Option β) : List α → Option (List β)
  | [] => some []
  | a :: as =>
    match f a, optionMapM f as with
    | some b, some bs => some (b :: bs)
    | _, _ => none

/-! ## Persistence (kanban_db.py lines 10-13, 83-94)

`DATA_FILE` is a module-level constant: the persisted path is the same for
every `KanbanBoard`, whatever its `user_id`.  The file system is modelled as a
map from paths to document contents. -/

def DATA_FILE : String := "kanban_data.json"

/-- The path a board with the given user id persists to — the module-level
`DATA_FILE`, independent of the user. -/
def boardDataPath (_user_id : String) : String := DATA_FILE

def FS : Type := String → Option (List ItemDict)

def fsWrite (fs : FS) (path : String) (doc : List ItemDict) : FS :=
  fun q => if q = path then some doc else fs q

def emptyFS : FS := fun _ => none

structure KanbanBoard where
  user_id : String
  items : List KanbanItem
deriving DecidableEq, Repr

/-- `KanbanBoard.save`: serialize the full collection and overwrite the
persisted document. -/
def KanbanBoard.save (b : KanbanBoard) (fs : FS) : FS :=
  fsWrite fs (boardDataPath b.user_id) (b.items.map KanbanItem.to_dict)

/-- `KanbanBoard.load`: read the persisted document, replacing the in-memory
collection; a missing file yields the empty collection.  `none` models the
uncaught exception when a stored record does not parse. -/
def KanbanBoard.load (now : String) (b : KanbanBoard) (fs : FS) : Option KanbanBoard :=
  match fs (boardDataPath b.user_id) with
  | none => some { b with items := [] }
  | some data =>
    (optionMapM (KanbanItem.from_dict now) data).map (fun its => { b with items := its })

/-! ## Board operations (kanban_db.py lines 96-234) -/

def KanbanBoard.get_item (b : KanbanBoard) (item_id : String) : Option KanbanItem :=
  b.items.find? (fun it => it.id = item_id)

/-- `add_item`: fresh id from the millisecond timestamp, status always
`todo`, empty completion fields, immediate save.  `now_ms`/`now_iso` are the
two renderings of the current instant the code takes. -/
def KanbanBoard.add_item (now_ms : Int) (now_iso : String) (b : KanbanBoard) (fs : FS)
    (title : String) (priority : Priority) (due_date : Option String)
    (description : String) : KanbanBoard × FS × KanbanItem :=
  let item : KanbanItem :=
    { id := "item_" ++ toString now_ms
      title := title
      status := .todo
      priority := priority
      due_date := due_date
      description := description
      created_at := now_iso
      completed_at := none
      time_to_complete := none
      tags := [] }
  let b' : KanbanBoard := { b with items := b.items ++ [item] }
  (b', b'.save fs, item)

/-- One keyword argument of `update_item`.  `status`/`priority` arrive as the
strings of the JSON request and go through `Status(...)`/`Priority[...]`; the
other mutable fields are plain `setattr`.  `id` is not listed: per the data
model it is never reassigned, and no caller passes it. -/
inductive ItemField
  | fstatus (value : String)
  | fpriority (value : String)
  | ftitle (value : String)
  | fdescription (value : String)
  | fdue_date (value : Option String)
  | ftags (value : List String)
  | fcompleted_at (value : Option String)
  | ftime_to_complete (value : Option Int)
deriving DecidableEq, Repr

inductive DbError
  | notFound (item_id : String)
  | invalidValue (value : String)
deriving DecidableEq, Repr

def applyField (it : KanbanItem) : ItemField → Except DbError KanbanItem
  | .fstatus v =>
    match Status.fromValue v with
    | some st => .ok { it with status := st }
    | none => .error (.invalidValue v)
  | .fpriority v =>
    match Priority.fromName v with
    | some p => .ok { it with priority := p }
    | none => .error (.invalidValue v)
  | .ftitle v => .ok { it with title := v }
  | .fdescription v => .ok { it with description := v }
  | .fdue_date v => .ok { it with due_date := v }
  | .ftags v => .ok { it with tags := v }
  | .fcompleted_at v => .ok { it with completed_at := v }
  | .ftime_to_complete v => .ok { it with time_to_complete := v }

def applyFields (it : KanbanItem) : List ItemField → Except DbError KanbanItem
  | [] => .ok it
  | f :: rest =>
    match applyField it f with
    | .error e => .error e
    | .ok it' => applyFields it' rest

/-- Replace the first item carrying the given id (Python mutates the object
`get_item` returned, i.e. the first match). -/
def replaceFirst : List KanbanItem → String → KanbanItem → List KanbanItem
  | [], _, _ => []
  | it :: rest, iid, item =>
    if it.id = iid then item :: rest else it :: replaceFirst rest iid item

/-- The demotion applied to one scanned item by the "only one top priority per
column" loop. -/
def enfFun (item_id : String) (col : Status) (other : KanbanItem) : KanbanItem :=
  if other.id ≠ item_id ∧ other.status = col ∧ other.priority = Priority.top_priority
  then { other with priority := .high } else other

/-- The enforcement loop of `update_item` / `move_item`: demote every other
top-priority item of the given column to high. -/
def enforceTop (item_id : String) (col : Status) (items : List KanbanItem) : List KanbanItem :=
  items.map (enfFun item_id col)

/-- `update_item`: look up, apply the keyword arguments in order, then enforce
the top-priority rule for the item's (possibly new) column, then save. -/
def KanbanBoard.update_item (b : KanbanBoard) (fs : FS) (item_id : String)
    (updates : List ItemField) : Except DbError (KanbanBoard × FS) :=
  match b.get_item item_id with
  | none => .error (.notFound item_id)
  | some item =>
    match applyFields item updates with
    | .error e => .error e
    | .ok item' =>
      let items1 := replaceFirst b.items item_id item'
      let items2 :=
        if item'.priority = Priority.top_priority then enforceTop item_id item'.status items1
        else items1
      let b' : KanbanBoard := { b with items := items2 }
      .ok (b', b'.save fs)

def KanbanBoard.delete_item (b : KanbanBoard) (fs : FS) (item_id : String) :
    KanbanBoard × FS :=
  let b' : KanbanBoard := { b with items := b.items.filter (fun it => it.id ≠ item_id) }
  (b', b'.save fs)

def KanbanBoard.get_items_by_status (b : KanbanBoard) (status : Status) : List KanbanItem :=
  b.items.filter (fun it => it.status = status)

def KanbanBoard.get_top_priority_item (b : KanbanBoard) (status : Status) : Option KanbanItem :=
  (b.get_items_by_status status).find? (fun it => it.priority = Priority.top_priority)

/-- `move_item`: not-found check, same-status early return (no save), the
done-transition completion stamping, status change, save, and top-priority
re-enforcement in the destination column.  `completed_at` is stamped with
`isoformat now` and immediately re-parsed by the code, which yields `now`
back, so `time_to_complete` is the whole-second difference `now - created`. -/
def KanbanBoard.move_item (now : Int) (b : KanbanBoard) (fs : FS) (item_id : String)
    (new_status : Status) : Except DbError (KanbanBoard × FS) :=
  match b.get_item item_id with
  | none => .error (.notFound item_id)
  | some item =>
    if item.status = new_status then .ok (b, fs)
    else
      match
        (if new_status = Status.done ∧ item.status ≠ Status.done then
          match fromisoformat item.created_at with
          | none => Except.error (DbError.invalidValue item.created_at)
          | some created =>
            Except.ok { item with
                        completed_at := some (isoformat now)
                        time_to_complete := some (now - created) }
        else Except.ok item) with
      | .error e => .error e
      | .ok item1 =>
        let item2 := { item1 with status := new_status }
        let items1 := replaceFirst b.items item_id item2
        let items2 :=
          if item2.priority = Priority.top_priority then enforceTop item_id new_status items1
          else items1
        let b' : KanbanBoard := { b with items := items2 }
        Except.ok (b', b'.save fs)

/-! ## Completion history and statistics (kanban_db.py lines 148-206) -/

/-- The completion-history filter: `item.status == Status.DONE and
item.completed_at` (Python truthiness on the optional timestamp). -/
def isCompletedRecord (it : KanbanItem) : Bool :=
  decide (it.status = Status.done) && optStrTruthy it.completed_at

/-- Stable insertion sort; Python `list.sort` is stable, so any stable sort
computes the same list. -/
def insertSorted (le : α → α → Bool) (a : α) : List α → List α
  | [] => [a]
  | b :: bs => if le a b then a :: b :: bs else b :: insertSorted le a bs

def insertionSort (le : α → α → Bool) : List α → List α
  | [] => []
  | a :: as => insertSorted le a (insertionSort le as)

/-- The comparator of `completed.sort(key=lambda x: x.completed_at,
reverse=True)`: descending by the completion timestamp, ties keeping insertion
order. -/
def completedDesc (x y : KanbanItem) : Bool :=
  strLe (y.completed_at.getD "") (x.completed_at.getD "")

def KanbanBoard.get_completed_items (b : KanbanBoard) (limit offset : Nat) :
    List KanbanItem :=
  let completed := b.items.filter isCompletedRecord
  ((insertionSort completedDesc completed).drop offset).take limit

/-- `item.completed_at and start_date <= item.completed_at[:10] <= end_date`. -/
def KanbanBoard.get_completed_items_by_date (b : KanbanBoard) (start_date end_date : String) :
    List KanbanItem :=
  (b.get_completed_items 10000 0).filter
    (fun it => optStrTruthy it.completed_at
      && strLe start_date ((it.completed_at.getD "").take 10)
      && strLe ((it.completed_at.getD "").take 10) end_date)

def KanbanBoard.get_completed_items_by_tag (b : KanbanBoard) (tag : String) :
    List KanbanItem :=
  (b.get_completed_items 10000 0).filter (fun it => tag ∈ it.tags)

/-- The aggregate of `get_completion_stats`.  `avg_time_to_complete` is the
exact average in hours (the code renders it as a one-decimal string; the
floating-point formatting is abstracted to the exact rational value); `none`
is the integer-`0` default used when no time is available. -/
structure CompletionStats where
  total_completed : Nat
  completed_this_week : Nat
  completed_this_month : Nat
  by_priority : List (String × Nat)
  avg_time_to_complete : Option ℚ
deriving DecidableEq, Repr

/-- Lines 193-198: `times = [t for item in completed if item.time_to_complete]`
followed by the average (`times` inlined at each use); the truthiness filter
keeps only recorded non-zero values, and the average is in exact rational
hours.  `none` is the integer-`0` default used when `times` is empty. -/
def avgTimeToComplete (completed : List KanbanItem) : Option ℚ :=
  if (completed.filter (fun it => optIntTruthy it.time_to_complete)).filterMap
      (fun it => it.time_to_complete) = [] then none
  else some (((((completed.filter (fun it => optIntTruthy it.time_to_complete)).filterMap
      (fun it => it.time_to_complete)).map (fun n : Int => (n : ℚ))).sum /
    (((completed.filter (fun it => optIntTruthy it.time_to_complete)).filterMap
      (fun it => it.time_to_complete)).length : ℚ)) / 3600)

/-- `get_completion_stats` applied to the completion history it queries.  The
result is `none` when a stored completion timestamp fails to parse (uncaught
exception in the code). -/
def completionStatsOf (now : Int) (completed : List KanbanItem) :
    Option CompletionStats :=
  if completed = [] then
    some { total_completed := 0
           avg_time_to_complete := none
           completed_this_week := 0
           completed_this_month := 0
           by_priority := [] }
  else
    match optionMapM (fun it => fromisoformat (it.completed_at.getD "")) completed with
    | none => none
    | some stamps =>
      some { total_completed := completed.length
             completed_this_week :=
               (stamps.filter (fun t => now - 7 * 86400 < t)).length
             completed_this_month :=
               (stamps.filter (fun t => now - 30 * 86400 < t)).length
             by_priority :=
               [Priority.low, .medium, .high, .top_priority].filterMap
                 (fun p =>
                   if (completed.filter (fun it => it.priority = p)).length > 0
                   then some (p.pname, (completed.filter (fun it => it.priority = p)).length)
                   else none)
             avg_time_to_complete := avgTimeToComplete completed }

def KanbanBoard.get_completion_stats (now : Int) (b : KanbanBoard) :
    Option CompletionStats :=
  completionStatsOf now (b.get_completed_items 10000 0)

/-! ## Calendar sync backends (calendar_sync_*.py)

Each backend method returns a Python dict; a dict carrying an `"error"` key is
a failure, everything else (an `"ok"`/payload dict or a `"message"` dict) is a
success.  `empty` is the falsy `{}` the Google CLI wrapper returns when the
external command fails, and `crashed` marks an uncaught exception that kills
the daemon thread the call runs on. -/

inductive SyncResult
  | ok
  | message (text : String)
  | empty
  | error (text : String)
  | crashed (text : String)
deriving DecidableEq, Repr

def SyncResult.succeeded : SyncResult → Bool
  | .ok => true
  | .message _ => true
  | .empty => false
  | .error _ => false
  | .crashed _ => false

/-! Association-list model of the per-backend `event_tracking` dicts. -/

def trackContains (m : List (String × String)) (k : String) : Bool :=
  m.any (fun kv => kv.1 = k)

def trackInsert (m : List (String × String)) (k v : String) : List (String × String) :=
  if trackContains m k then m.map (fun kv => if kv.1 = k then (k, v) else kv)
  else m ++ [(k, v)]

def trackErase (m : List (String × String)) (k : String) : List (String × String) :=
  m.filter (fun kv => kv.1 ≠ k)

/-! ### iCalSync (calendar_sync_ical.py) -/

structure ICalSync where
  event_tracking : List (String × String)
deriving DecidableEq, Repr

/-- `iCalSync.add_event`: invalid/missing due date fails; otherwise the event
is written to the `.ics` file (abstracted away) and the tracking entry
`item_id ↦ "item_id@scout-tdl"` is recorded. -/
def ICalSync.add_event (s : ICalSync) (item : KanbanItem) : ICalSync × SyncResult :=
  match item.due_date with
  | none => (s, .error "Invalid due_date")
  | some d =>
    match fromisoformat d with
    | none => (s, .error "Invalid due_date")
    | some _ =>
      ({ event_tracking := trackInsert s.event_tracking item.id (item.id ++ "@scout-tdl") },
        .ok)

/-- `iCalSync.remove_event` (lines 74-78): removal is deferred to the next
full rebuild; the call succeeds with a message and `event_tracking` is NOT
touched. -/
def ICalSync.remove_event (s : ICalSync) (_item_id : String) : ICalSync × SyncResult :=
  (s, .message "Event removal handled via rebuild")

/-! ### OutlookCalendarSync (calendar_sync_outlook.py) -/

structure OutlookSync where
  token : Option String
  event_tracking : List (String × String)
deriving DecidableEq, Repr

/-- `OutlookCalendarSync.remove_event`: skipped without a token or tracking
entry; otherwise a Graph-API DELETE (its outcome is the external `api_ok`)
deletes the tracking entry on HTTP 204. -/
def OutlookSync.remove_event (api_ok : Bool) (s : OutlookSync) (item_id : String) :
    OutlookSync × SyncResult :=
  if s.token = none ∨ ¬ trackContains s.event_tracking item_id then
    (s, .message "Event removal skipped (not tracked)")
  else if api_ok then
    ({ s with event_tracking := trackErase s.event_tracking item_id }, .ok)
  else (s, .error "Outlook API error")

/-! ### GoogleCalendarSync (calendar_sync_google.py) -/

structure GoogleSync where
  event_tracking : List (String × String)
deriving DecidableEq, Repr

/-- `GoogleCalendarSync.remove_event`: runs the `gog` CLI (outcome
`gog_truthy`: a truthy JSON payload versus the falsy `{}` returned on any CLI
failure); on a truthy result the code does `del event_tracking[item_id]`,
which raises `KeyError` when the id was never tracked. -/
def GoogleSync.remove_event (gog_truthy : Bool) (s : GoogleSync) (item_id : String) :
    GoogleSync × SyncResult :=
  if gog_truthy then
    if trackContains s.event_tracking item_id then
      ({ event_tracking := trackErase s.event_tracking item_id }, .ok)
    else (s, .crashed "KeyError")
  else (s, .empty)

/-! ### AppleCalendarSync (calendar_sync_apple.py) -/

structure AppleSync where
  event_tracking : List (String × Bool)
deriving DecidableEq, Repr

/-- `AppleCalendarSync.remove_event`: removal requires manual deletion; the
call succeeds with a message and `event_tracking` is not touched. -/
def AppleSync.remove_event (s : AppleSync) (_item_id : String) : AppleSync × SyncResult :=
  (s, .message "Apple Calendar event removal requires manual deletion")

/-! ### AutoCalendarSync (calendar_sync_auto.py) -/

structure AutoCalendarSync where
  outlook : Option OutlookSync
  google : Option GoogleSync
  apple : Option AppleSync
  ical : Option ICalSync
  sync_enabled : Bool
deriving DecidableEq, Repr

/-- Per-backend results of one remove dispatch (`none` = backend not
configured), in the order outlook, google, apple, ical. -/
structure RemoveResults where
  outlook : Option SyncResult
  google : Option SyncResult
  apple : Option SyncResult
  ical : Option SyncResult
deriving DecidableEq, Repr

/-- `AutoCalendarSync.remove_item_from_all_calendars` (lines 86-113): no-op
when sync is disabled; otherwise each configured backend's `remove_event` runs
on its own daemon thread and touches only that backend's own state, modelled
as independent per-backend updates.  `outlook_api_ok` / `gog_truthy` are the
outcomes of the external calls. -/
def AutoCalendarSync.remove_item_from_all_calendars (outlook_api_ok gog_truthy : Bool)
    (a : AutoCalendarSync) (item_id : String) : AutoCalendarSync × RemoveResults :=
  if ¬ a.sync_enabled then
    (a, { outlook := none, google := none, apple := none, ical := none })
  else
    let o := a.outlook.map (fun s => OutlookSync.remove_event outlook_api_ok s item_id)
    let g := a.google.map (fun s => GoogleSync.remove_event gog_truthy s item_id)
    let ap := a.apple.map (fun s => AppleSync.remove_event s item_id)
    let i := a.ical.map (fun s => ICalSync.remove_event s item_id)
    ({ outlook := o.map Prod.fst
       google := g.map Prod.fst
       apple := ap.map Prod.fst
       ical := i.map Prod.fst
       sync_enabled := a.sync_enabled },
      { outlook := o.map Prod.snd
        google := g.map Prod.snd
        apple := ap.map Prod.snd
        ical := i.map Prod.snd })

/-! ## Concrete fixtures used by witnesses and counterexamples -/

def itemScout : KanbanItem :=
  { id := "item_1", title := "scout task", status := .todo, priority := .medium,
    due_date := none, description := "", created_at := "100",
    completed_at := none, time_to_complete := none, tags := [] }

def itemReid : KanbanItem :=
  { id := "item_2", title := "reid task", status := .todo, priority := .medium,
    due_date := none, description := "", created_at := "200",
    completed_at := none, time_to_complete := none, tags := [] }

def scoutBoard : KanbanBoard := { user_id := "scout", items := [itemScout] }

def reidBoard : KanbanBoard := { user_id := "reid", items := [itemReid] }

def c5Board : KanbanBoard := { user_id := "scout", items := [] }

/-! ## Claim C5 -/

/-- Claim C5 (confirmed): `update_item` and `move_item` called with an id not on the
board fail with the NotFound error carrying the missing id, producing no modified
board or persisted document (the error is raised before any mutation, so the caller
keeps the unchanged `b` and `fs`). -/
theorem unknown_id_fails_not_found (b : KanbanBoard) (fs : FS) (item_id : String)
    (h : b.get_item item_id = none) :
    (∀ updates, b.update_item fs item_id updates = .error (.notFound item_id)) ∧
    (∀ now new_status, b.move_item now fs item_id new_status =
      .error (.notFound item_id)) := by
  constructor
  · intro updates
    unfold KanbanBoard.update_item
    rw [h]
  · intro now new_status
    unfold KanbanBoard.move_item
    rw [h]

/-- Witness for C5 at a concrete empty board and a concrete missing id. -/
theorem unknown_id_fails_not_found_witness :
    c5Board.get_item "missing" = none ∧
    c5Board.update_item emptyFS "missing" [] = .error (.notFound "missing") ∧
    c5Board.move_item 0 emptyFS "missing" Status.done = .error (.notFound "missing") :=
  ⟨rfl,
    (unknown_id_fails_not_found c5Board emptyFS "missing" rfl).1 [],
    (unknown_id_fails_not_found c5Board emptyFS "missing" rfl).2 0 Status.done⟩

/-! ## Claim C3 -/

/-- Claim C3 (code_bug): every board persists to the module-level `DATA_FILE`
regardless of its user, so the two per-user boards of the application share one
persisted document.  After reid's board is saved and then scout's board is saved,
loading reid's board yields scout's item collection, not reid's own — the claimed
per-user isolation fails. -/
theorem shared_data_file_clobbers_other_user :
    boardDataPath "scout" = boardDataPath "reid" ∧
    KanbanBoard.load "0" reidBoard (scoutBoard.save (reidBoard.save emptyFS)) =
      some { user_id := "reid", items := [itemScout] } ∧
    itemScout ≠ itemReid :=
  ⟨rfl, by decide, by decide⟩

/-! ## Claim C6 -/

def c6Sync : AutoCalendarSync :=
  { outlook := none, google := none, apple := none,
    ical := some { event_tracking := [("item_1", "item_1@scout-tdl")] },
    sync_enabled := true }

/-- Claim C6 counterexample: with the application's configuration (iCal as the only
backend) and a tracked item, dispatching a remove reports success for the iCal
backend yet its tracking entry for the item is still present afterwards — refuting
"for every backend whose removeEvent succeeded, the entry has been deleted". -/
theorem ical_remove_keeps_tracking_entry :
    (c6Sync.remove_item_from_all_calendars true true "item_1").2.ical.map
        SyncResult.succeeded = some true ∧
    (c6Sync.remove_item_from_all_calendars true true "item_1").1.ical.map
        (fun s => trackContains s.event_tracking "item_1") = some true := by
  decide

/-- Claim C6 (corrected): after a remove dispatch, the Outlook backend deletes its
tracking entry exactly when its authenticated, tracked API delete succeeded, while
the iCal backend's removeEvent succeeds as a no-op message and leaves its tracking
entry untouched — so entries can remain for backends whose removal succeeded. -/
theorem remove_dispatch_tracking_behavior (a : AutoCalendarSync) (item_id : String)
    (oa gt : Bool) (si : ICalSync) (so : OutlookSync)
    (hs : a.sync_enabled = true) (hi : a.ical = some si) (ho : a.outlook = some so)
    (htok : so.token ≠ none) (htr : trackContains so.event_tracking item_id = true)
    (hoa : oa = true) :
    (a.remove_item_from_all_calendars oa gt item_id).1.ical = some si ∧
    (a.remove_item_from_all_calendars oa gt item_id).2.ical.map
      SyncResult.succeeded = some true ∧
    (a.remove_item_from_all_calendars oa gt item_id).1.outlook =
      some { so with event_tracking := trackErase so.event_tracking item_id } ∧
    (a.remove_item_from_all_calendars oa gt item_id).2.outlook.map
      SyncResult.succeeded = some true := by
  subst hoa
  simp only [AutoCalendarSync.remove_item_from_all_calendars, hs, not_true_eq_false,
    if_false, hi, ho, Option.map_map]
  unfold OutlookSync.remove_event ICalSync.remove_event
  simp [htok, htr, SyncResult.succeeded]

def c6wIcal : ICalSync := { event_tracking := [("item_9", "item_9@scout-tdl")] }

def c6wOutlook : OutlookSync :=
  { token := some "tok", event_tracking := [("item_9", "evt_42")] }

def c6wSync : AutoCalendarSync :=
  { outlook := some c6wOutlook, google := none, apple := none,
    ical := some c6wIcal, sync_enabled := true }

/-- Witness for the corrected C6 at a concrete dispatcher configuration. -/
theorem remove_dispatch_tracking_behavior_witness :
    (c6wSync.sync_enabled = true ∧ c6wSync.ical = some c6wIcal ∧
      c6wSync.outlook = some c6wOutlook ∧ c6wOutlook.token ≠ none ∧
      trackContains c6wOutlook.event_tracking "item_9" = true) ∧
    ((c6wSync.remove_item_from_all_calendars true true "item_9").1.ical = some c6wIcal ∧
      (c6wSync.remove_item_from_all_calendars true true "item_9").2.ical.map
        SyncResult.succeeded = some true ∧
      (c6wSync.remove_item_from_all_calendars true true "item_9").1.outlook =
        some { c6wOutlook with
                event_tracking := trackErase c6wOutlook.event_tracking "item_9" } ∧
      (c6wSync.remove_item_from_all_calendars true true "item_9").2.outlook.map
        SyncResult.succeeded = some true) :=
  ⟨⟨rfl, rfl, rfl, by decide, by decide⟩,
    remove_dispatch_tracking_behavior c6wSync "item_9" true true c6wIcal c6wOutlook
      rfl rfl rfl (by decide) (by decide) rfl⟩

/-! ## Structural lemmas about the board operations -/

theorem get_item_split {b : KanbanBoard} {pid : String} {item : KanbanItem}
    (h : b.get_item pid = some item) :
    item.id = pid ∧ ∃ l1 l2, b.items = l1 ++ item :: l2 ∧ ∀ x ∈ l1, x.id ≠ pid := by
  unfold KanbanBoard.get_item at h
  rw [List.find?_eq_some] at h
  obtain ⟨hp, l1, l2, heq, hall⟩ := h
  refine ⟨by simpa using hp, l1, l2, heq, ?_⟩
  intro x hx
  simpa using hall x hx

theorem find?_first {l1 l2 : List KanbanItem} {item : KanbanItem} {pid : String}
    (h1 : ∀ x ∈ l1, x.id ≠ pid) (h2 : item.id = pid) :
    (l1 ++ item :: l2).find? (fun it => it.id = pid) = some item := by
  induction l1 with
  | nil =>
    rw [List.nil_append]
    exact List.find?_cons_of_pos _ (by simp [h2])
  | cons a as ih =>
    have ha : a.id ≠ pid := h1 a (by simp)
    rw [List.cons_append, List.find?_cons_of_neg _ (by simp [ha])]
    exact ih (fun x hx => h1 x (by simp [hx]))

theorem replaceFirst_append (l1 l2 : List KanbanItem) (item item' : KanbanItem)
    (pid : String) (h1 : ∀ x ∈ l1, x.id ≠ pid) (h2 : item.id = pid) :
    replaceFirst (l1 ++ item :: l2) pid item' = l1 ++ item' :: l2 := by
  induction l1 with
  | nil => simp [replaceFirst, h2]
  | cons a as ih =>
    have ha : a.id ≠ pid := h1 a (by simp)
    rw [List.cons_append]
    rw [replaceFirst, if_neg ha]
    rw [ih (fun x hx => h1 x (by simp [hx]))]
    rfl

theorem enfFun_id (pid : String) (col : Status) (x : KanbanItem) :
    (enfFun pid col x).id = x.id := by
  unfold enfFun
  split <;> rfl

theorem enfFun_pivot {pid : String} {x : KanbanItem} (col : Status) (h : x.id = pid) :
    enfFun pid col x = x := by
  unfold enfFun
  rw [if_neg]
  simp [h]

theorem enforceTop_append (pid : String) (col : Status) (l1 l2 : List KanbanItem)
    (item : KanbanItem) (h : item.id = pid) :
    enforceTop pid col (l1 ++ item :: l2) =
      (l1.map (enfFun pid col)) ++ item :: (l2.map (enfFun pid col)) := by
  simp [enforceTop, enfFun_pivot col h]

theorem find?_post {l1 l2 : List KanbanItem} {item' : KanbanItem} {pid : String}
    (col : Status) (h1 : ∀ x ∈ l1, x.id ≠ pid) (h2 : item'.id = pid) :
    ((l1.map (enfFun pid col)) ++ item' :: (l2.map (enfFun pid col))).find?
      (fun it => it.id = pid) = some item' :=
  find?_first (fun x hx => by
    obtain ⟨y, hy, rfl⟩ := List.mem_map.mp hx
    rw [enfFun_id]
    exact h1 y hy) h2

/-- The `update_item` keyword arguments that write the completion bookkeeping
fields directly. -/
def touchesCompletionFields : ItemField → Bool
  | .fcompleted_at _ => true
  | .ftime_to_complete _ => true
  | _ => false

theorem applyField_preserves {it it' : KanbanItem} {f : ItemField}
    (h : applyField it f = .ok it') :
    it'.id = it.id ∧ it'.created_at = it.created_at ∧
    (touchesCompletionFields f = false →
      it'.completed_at = it.completed_at ∧ it'.time_to_complete = it.time_to_complete) := by
  cases f with
  | fstatus v =>
    simp only [applyField] at h
    split at h
    · simp only [Except.ok.injEq] at h
      subst h
      simp [touchesCompletionFields]
    · simp at h
  | fpriority v =>
    simp only [applyField] at h
    split at h
    · simp only [Except.ok.injEq] at h
      subst h
      simp [touchesCompletionFields]
    · simp at h
  | ftitle v =>
    simp only [applyField, Except.ok.injEq] at h
    subst h
    simp [touchesCompletionFields]
  | fdescription v =>
    simp only [applyField, Except.ok.injEq] at h
    subst h
    simp [touchesCompletionFields]
  | fdue_date v =>
    simp only [applyField, Except.ok.injEq] at h
    subst h
    simp [touchesCompletionFields]
  | ftags v =>
    simp only [applyField, Except.ok.injEq] at h
    subst h
    simp [touchesCompletionFields]
  | fcompleted_at v =>
    simp only [applyField, Except.ok.injEq] at h
    subst h
    simp [touchesCompletionFields]
  | ftime_to_complete v =>
    simp only [applyField, Except.ok.injEq] at h
    subst h
    simp [touchesCompletionFields]

theorem applyFields_id {it it' : KanbanItem} {updates : List ItemField}
    (h : applyFields it updates = .ok it') : it'.id = it.id := by
  induction updates generalizing it with
  | nil =>
    simp only [applyFields, Except.ok.injEq] at h
    subst h
    rfl
  | cons f rest ih =>
    simp only [applyFields] at h
    split at h
    · simp at h
    · next it1 heq =>
      exact (ih h).trans (applyField_preserves heq).1

theorem applyFields_preserves_completion {it it' : KanbanItem} {updates : List ItemField}
    (h : applyFields it updates = .ok it')
    (hno : updates.all (fun f => !touchesCompletionFields f) = true) :
    it'.completed_at = it.completed_at ∧ it'.time_to_complete = it.time_to_complete := by
  induction updates generalizing it with
  | nil =>
    simp only [applyFields, Except.ok.injEq] at h
    subst h
    exact ⟨rfl, rfl⟩
  | cons f rest ih =>
    simp only [applyFields] at h
    split at h
    · simp at h
    · next it1 heq =>
      simp only [List.all_cons, Bool.and_eq_true, Bool.not_eq_eq_eq_not, Bool.not_true] at hno
      obtain ⟨hf, hrest⟩ := hno
      have p1 := (applyField_preserves heq).2.2 hf
      have p2 := ih h (by simpa using hrest)
      exact ⟨p2.1.trans p1.1, p2.2.trans p1.2⟩

/-- Extract the resulting board of a successful mutation (used to state concrete
evaluations, since the file-store component is a function). -/
def okBoard : Except DbError (KanbanBoard × FS) → Option KanbanBoard
  | .ok p => some p.1
  | .error _ => none

/-! ## Claim C2 -/

def c2Item : KanbanItem :=
  { id := "c2a", title := "task", status := .todo, priority := .medium,
    due_date := none, description := "", created_at := "100",
    completed_at := none, time_to_complete := none, tags := [] }

def c2Board : KanbanBoard := { user_id := "scout", items := [c2Item] }

/-- Claim C2 counterexample: `update_item` applying a status field whose value is
the Done value leaves the item with status Done but `completed_at` (and
`time_to_complete`) unset, refuting "no operation can leave an item with status
Done but with completedAt unset". -/
theorem update_status_done_leaves_completed_unset :
    (okBoard (c2Board.update_item emptyFS "c2a" [ItemField.fstatus "done"])).map
      (fun b => (b.get_item "c2a").map
        (fun it => (it.status, it.completed_at, it.time_to_complete)))
      = some (some (Status.done, none, none)) := by
  decide

/-- Claim C2 (corrected): only `move_item` stamps `completed_at`/`time_to_complete`;
`update_item` applies a status field directly with no completion bookkeeping, so an
update whose fields do not themselves write the completion fields leaves both
exactly as they were — even when the new status is Done. -/
theorem completion_stamping_only_via_move
    (b : KanbanBoard) (fs : FS) (item_id : String) (updates : List ItemField)
    (b' : KanbanBoard) (item : KanbanItem)
    (hget : b.get_item item_id = some item)
    (hok : okBoard (b.update_item fs item_id updates) = some b')
    (hno : updates.all (fun f => !touchesCompletionFields f) = true) :
    (b'.get_item item_id).map (fun it => (it.completed_at, it.time_to_complete)) =
      some (item.completed_at, item.time_to_complete) := by
  unfold KanbanBoard.update_item at hok
  rw [hget] at hok
  obtain ⟨hid, l1, l2, hitems, hl1⟩ := get_item_split hget
  cases happ : applyFields item updates with
  | error e =>
    simp [happ, okBoard] at hok
  | ok item' =>
    simp only [happ, okBoard, Option.some.injEq] at hok
    have hid' : item'.id = item_id := (applyFields_id happ).trans hid
    have hpres := applyFields_preserves_completion happ hno
    have hrepl : replaceFirst b.items item_id item' = l1 ++ item' :: l2 := by
      rw [hitems]
      exact replaceFirst_append l1 l2 item item' item_id hl1 hid
    have hfind : (if item'.priority = Priority.top_priority
          then enforceTop item_id item'.status (replaceFirst b.items item_id item')
          else replaceFirst b.items item_id item').find?
        (fun it => it.id = item_id) = some item' := by
      rw [hrepl]
      split
      · rw [enforceTop_append _ _ _ _ _ hid']
        exact find?_post _ hl1 hid'
      · exact find?_first hl1 hid'
    rw [← hok]
    show ((if item'.priority = Priority.top_priority
          then enforceTop item_id item'.status (replaceFirst b.items item_id item')
          else replaceFirst b.items item_id item').find?
        (fun it => it.id = item_id)).map
        (fun it => (it.completed_at, it.time_to_complete)) =
      some (item.completed_at, item.time_to_complete)
    rw [hfind]
    simp [hpres.1, hpres.2]

def c2wItem : KanbanItem :=
  { id := "c2w", title := "t", status := .review, priority := .high,
    due_date := none, description := "", created_at := "50",
    completed_at := none, time_to_complete := none, tags := [] }

def c2wBoard : KanbanBoard := { user_id := "scout", items := [c2wItem] }

def c2wBoard' : KanbanBoard :=
  { user_id := "scout", items := [{ c2wItem with status := .done }] }

/-- Witness for the corrected C2: a concrete update that sets status to Done
succeeds and leaves the completion fields unchanged (still unset). -/
theorem completion_stamping_only_via_move_witness :
    (c2wBoard.get_item "c2w" = some c2wItem ∧
      okBoard (c2wBoard.update_item emptyFS "c2w" [ItemField.fstatus "done"]) =
        some c2wBoard' ∧
      [ItemField.fstatus "done"].all (fun f => !touchesCompletionFields f) = true) ∧
    (c2wBoard'.get_item "c2w").map (fun it => (it.completed_at, it.time_to_complete)) =
      some (c2wItem.completed_at, c2wItem.time_to_complete) :=
  ⟨⟨by decide, by decide, by decide⟩,
    completion_stamping_only_via_move c2wBoard emptyFS "c2w" [ItemField.fstatus "done"]
      c2wBoard' c2wItem (by decide) (by decide) (by decide)⟩

/-! ## Claim C4 -/

theorem move_item_run {b : KanbanBoard} {fs : FS} {item_id : String} {now : Int}
    {item : KanbanItem} {created : Int}
    (hget : b.get_item item_id = some item)
    (hnd : item.status ≠ Status.done)
    (hparse : fromisoformat item.created_at = some created) :
    b.move_item now fs item_id Status.done =
      (let item2 : KanbanItem :=
        { item with
            status := Status.done
            completed_at := some (isoformat now)
            time_to_complete := some (now - created) }
       let items1 := replaceFirst b.items item_id item2
       let items2 :=
         if item2.priority = Priority.top_priority
         then enforceTop item_id Status.done items1 else items1
       let b' : KanbanBoard := { b with items := items2 }
       Except.ok (b', b'.save fs)) := by
  unfold KanbanBoard.move_item
  rw [hget]
  simp only [if_neg hnd, hparse]
  simp [hnd]

theorem get_item_after_replace {b : KanbanBoard} {item_id : String}
    {item item' : KanbanItem} {l1 l2 : List KanbanItem} (col : Status)
    (hitems : b.items = l1 ++ item :: l2) (hl1 : ∀ x ∈ l1, x.id ≠ item_id)
    (hid : item.id = item_id) (hid' : item'.id = item_id) :
    (if item'.priority = Priority.top_priority
        then enforceTop item_id col (replaceFirst b.items item_id item')
        else replaceFirst b.items item_id item').find?
      (fun it => it.id = item_id) = some item' := by
  have hrepl : replaceFirst b.items item_id item' = l1 ++ item' :: l2 := by
    rw [hitems]
    exact replaceFirst_append l1 l2 item item' item_id hl1 hid
  rw [hrepl]
  split
  · rw [enforceTop_append _ _ _ _ _ hid']
    exact find?_post _ hl1 hid'
  · exact find?_first hl1 hid'

/-- Claim C4 (confirmed): moving a non-Done item to Done stamps `completed_at`
with the current instant and `time_to_complete` with the non-negative
whole-second difference to `created_at`, exactly once — a second move to Done of
the now-Done item is an early-returning no-op that changes nothing (not even the
persisted document). -/
theorem move_to_done_stamps_once
    (b : KanbanBoard) (fs : FS) (item_id : String) (now now2 : Int)
    (item : KanbanItem) (created : Int)
    (hget : b.get_item item_id = some item)
    (hnd : item.status ≠ Status.done)
    (hparse : fromisoformat item.created_at = some created)
    (hle : created ≤ now) :
    ((b.move_item now fs item_id Status.done).map
        (fun p => (p.1.get_item item_id).map
          (fun it => (it.status, it.completed_at, it.time_to_complete)))
      = .ok (some (Status.done, some (isoformat now), some (now - created)))) ∧
    0 ≤ now - created ∧
    ((b.move_item now fs item_id Status.done).bind
        (fun p => p.1.move_item now2 p.2 item_id Status.done)
      = b.move_item now fs item_id Status.done) := by
  obtain ⟨hid, l1, l2, hitems, hl1⟩ := get_item_split hget
  have hrun := @move_item_run b fs item_id now item created hget hnd hparse
  set item2 : KanbanItem :=
    { item with
        status := Status.done
        completed_at := some (isoformat now)
        time_to_complete := some (now - created) } with hitem2
  have hid2 : item2.id = item_id := hid
  have hfind :
      (if item2.priority = Priority.top_priority
          then enforceTop item_id Status.done (replaceFirst b.items item_id item2)
          else replaceFirst b.items item_id item2).find?
        (fun it => it.id = item_id) = some item2 :=
    get_item_after_replace Status.done hitems hl1 hid hid2
  refine ⟨?_, by omega, ?_⟩
  · rw [hrun]
    show (Except.ok (((if item2.priority = Priority.top_priority
          then enforceTop item_id Status.done (replaceFirst b.items item_id item2)
          else replaceFirst b.items item_id item2).find?
        (fun it => it.id = item_id)).map
        (fun it => (it.status, it.completed_at, it.time_to_complete)))
        : Except DbError (Option (Status × Option String × Option Int)))
      = Except.ok (some (Status.done, some (isoformat now), some (now - created)))
    rw [hfind]
    rfl
  · rw [hrun]
    show KanbanBoard.move_item now2
        { b with items := if item2.priority = Priority.top_priority
            then enforceTop item_id Status.done (replaceFirst b.items item_id item2)
            else replaceFirst b.items item_id item2 }
        (KanbanBoard.save _ fs) item_id Status.done = _
    unfold KanbanBoard.move_item
    show (match (if item2.priority = Priority.top_priority
          then enforceTop item_id Status.done (replaceFirst b.items item_id item2)
          else replaceFirst b.items item_id item2).find?
        (fun it => it.id = item_id) with
      | none => Except.error (DbError.notFound item_id)
      | some it =>
        if it.status = Status.done then Except.ok (_, _) else _) = _
    rw [hfind]
    rfl

def c4Item : KanbanItem :=
  { id := "c4", title := "t", status := .in_progress, priority := .medium,
    due_date := none, description := "", created_at := "100",
    completed_at := none, time_to_complete := none, tags := [] }

def c4Board : KanbanBoard := { user_id := "scout", items := [c4Item] }

/-- Witness for C4 at a concrete board: item created at instant 100 moved to Done
at instant 250, then moved to Done again at instant 300. -/
theorem move_to_done_stamps_once_witness :
    (c4Board.get_item "c4" = some c4Item ∧ c4Item.status ≠ Status.done ∧
      fromisoformat c4Item.created_at = some 100 ∧ (100 : Int) ≤ 250) ∧
    (((c4Board.move_item 250 emptyFS "c4" Status.done).map
        (fun p => (p.1.get_item "c4").map
          (fun it => (it.status, it.completed_at, it.time_to_complete)))
      = .ok (some (Status.done, some (isoformat 250), some (250 - 100)))) ∧
      0 ≤ (250 : Int) - 100 ∧
      ((c4Board.move_item 250 emptyFS "c4" Status.done).bind
          (fun p => p.1.move_item 300 p.2 "c4" Status.done)
        = c4Board.move_item 250 emptyFS "c4" Status.done)) :=
  ⟨⟨by decide, by decide, by decide, by decide⟩,
    move_to_done_stamps_once c4Board emptyFS "c4" 250 300 c4Item 100
      (by decide) (by decide) (by decide) (by decide)⟩

/-! ## Claim C8 -/

theorem fromValue_value (s : Status) : Status.fromValue s.value = some s := by
  cases s <;> rfl

theorem fromName_pname (p : Priority) : Priority.fromName p.pname = some p := by
  cases p <;> rfl

theorem fsWrite_read (fs : FS) (p : String) (doc : List ItemDict) :
    fsWrite fs p doc p = some doc := by
  unfold fsWrite
  simp

theorem from_dict_to_dict (now : String) (it : KanbanItem) (h : it.created_at ≠ "") :
    KanbanItem.from_dict now it.to_dict = some it := by
  unfold KanbanItem.from_dict
  simp only [KanbanItem.to_dict]
  rw [fromValue_value, fromName_pname]
  simp [h]

theorem optionMapM_from_to (now : String) (l : List KanbanItem)
    (h : ∀ it ∈ l, it.created_at ≠ "") :
    optionMapM (KanbanItem.from_dict now) (l.map KanbanItem.to_dict) = some l := by
  induction l with
  | nil => rfl
  | cons a as ih =>
    simp only [List.map_cons, optionMapM]
    rw [from_dict_to_dict now a (h a (by simp)), ih (fun it hit => h it (by simp [hit]))]

/-- Claim C8 (confirmed): saving the board and loading it back reproduces an
identical item collection — same ids, same value of every field, same order
(for the actual item population, whose `created_at` stamps are non-empty
strings; an empty `created_at` would be replaced by the load-time clock). -/
theorem save_load_roundtrip (b : KanbanBoard) (fs : FS) (now : String)
    (h : ∀ it ∈ b.items, it.created_at ≠ "") :
    KanbanBoard.load now b (b.save fs) = some b := by
  unfold KanbanBoard.load KanbanBoard.save
  rw [fsWrite_read]
  show (optionMapM (KanbanItem.from_dict now) (b.items.map KanbanItem.to_dict)).map
      (fun its => { b with items := its }) = some b
  rw [optionMapM_from_to now b.items h]
  rfl

def c8Item : KanbanItem :=
  { id := "c8", title := "round", status := .review, priority := .top_priority,
    due_date := some "2025-06-01", description := "desc", created_at := "123",
    completed_at := some "456", time_to_complete := some 333, tags := ["x", "y"] }

def c8Board : KanbanBoard := { user_id := "reid", items := [c8Item] }

/-- Witness for C8 at a concrete board exercising every item field. -/
theorem save_load_roundtrip_witness :
    (∀ it ∈ c8Board.items, it.created_at ≠ "") ∧
    KanbanBoard.load "999" c8Board (c8Board.save emptyFS) = some c8Board :=
  ⟨by decide, save_load_roundtrip c8Board emptyFS "999" (by decide)⟩

/-! ## Claim C10 -/

theorem insertSorted_perm (le : α → α → Bool) (a : α) (l : List α) :
    (insertSorted le a l).Perm (a :: l) := by
  induction l with
  | nil => simp [insertSorted]
  | cons b bs ih =>
    simp only [insertSorted]
    split
    · exact List.Perm.refl _
    · exact (ih.cons b).trans (List.Perm.swap a b bs)

theorem insertionSort_perm (le : α → α → Bool) (l : List α) :
    (insertionSort le l).Perm l := by
  induction l with
  | nil => simp [insertionSort]
  | cons a as ih => exact (insertSorted_perm le a _).trans (ih.cons a)

theorem mem_insertionSort {le : α → α → Bool} {l : List α} {x : α} :
    x ∈ insertionSort le l ↔ x ∈ l :=
  (insertionSort_perm le l).mem_iff

theorem length_insertionSort (le : α → α → Bool) (l : List α) :
    (insertionSort le l).length = l.length :=
  (insertionSort_perm le l).length_eq

theorem mem_get_completed_items {b : KanbanBoard} {limit offset : Nat} {x : KanbanItem}
    (hx : x ∈ b.get_completed_items limit offset) :
    x ∈ b.items ∧ isCompletedRecord x = true := by
  unfold KanbanBoard.get_completed_items at hx
  have hx1 := List.mem_of_mem_drop (List.mem_of_mem_take hx)
  rw [mem_insertionSort] at hx1
  exact List.mem_filter.mp hx1

/-- Claim C10 (confirmed): `get_completed_items` returns exactly the items whose
status is Done and whose `completed_at` is set (Python truthiness: a non-None,
non-empty timestamp), and the date-range filter, tag filter and hence the
completion statistics are built on it — so an item whose status is Done with
`completed_at` never stamped is excluded from all of them. -/
theorem completed_items_characterization (b : KanbanBoard) (it : KanbanItem) :
    (it ∈ b.get_completed_items b.items.length 0 ↔
      it ∈ b.items ∧ it.status = Status.done ∧ optStrTruthy it.completed_at = true) ∧
    (it.status = Status.done → it.completed_at = none →
      (∀ limit offset, it ∉ b.get_completed_items limit offset) ∧
      (∀ s e, it ∉ b.get_completed_items_by_date s e) ∧
      (∀ tag, it ∉ b.get_completed_items_by_tag tag)) := by
  have hfull : b.get_completed_items b.items.length 0 =
      insertionSort completedDesc (b.items.filter isCompletedRecord) := by
    unfold KanbanBoard.get_completed_items
    simp only [List.drop_zero]
    exact List.take_of_length_le (by
      rw [length_insertionSort]
      exact List.length_filter_le _ _)
  constructor
  · rw [hfull, mem_insertionSort, List.mem_filter]
    simp [isCompletedRecord]
  · intro hdone hnone
    have hnotrec : isCompletedRecord it = false := by
      simp [isCompletedRecord, hnone, optStrTruthy]
    refine ⟨?_, ?_, ?_⟩
    · intro limit offset hmem
      have := (mem_get_completed_items hmem).2
      rw [hnotrec] at this
      exact Bool.false_ne_true this
    · intro s e hmem
      unfold KanbanBoard.get_completed_items_by_date at hmem
      have := (mem_get_completed_items (List.mem_filter.mp hmem).1).2
      rw [hnotrec] at this
      exact Bool.false_ne_true this
    · intro tag hmem
      unfold KanbanBoard.get_completed_items_by_tag at hmem
      have := (mem_get_completed_items (List.mem_filter.mp hmem).1).2
      rw [hnotrec] at this
      exact Bool.false_ne_true this

def c10Ghost : KanbanItem :=
  { id := "c10g", title := "ghost", status := .done, priority := .low,
    due_date := none, description := "", created_at := "10",
    completed_at := none, time_to_complete := some 5, tags := ["x"] }

def c10Done : KanbanItem :=
  { id := "c10d", title := "real", status := .done, priority := .low,
    due_date := none, description := "", created_at := "20",
    completed_at := some "300", time_to_complete := some 280, tags := ["x"] }

def c10Board : KanbanBoard := { user_id := "scout", items := [c10Ghost, c10Done] }

/-- Witness for C10: a Done item with `completed_at` unset is excluded from the
completion history and both derived filters, on a concrete board. -/
theorem completed_items_characterization_witness :
    (c10Ghost.status = Status.done ∧ c10Ghost.completed_at = none) ∧
    (c10Ghost ∈ c10Board.get_completed_items c10Board.items.length 0 ↔
      c10Ghost ∈ c10Board.items ∧ c10Ghost.status = Status.done ∧
        optStrTruthy c10Ghost.completed_at = true) ∧
    c10Ghost ∉ c10Board.get_completed_items 100 0 ∧
    c10Ghost ∉ c10Board.get_completed_items_by_date "0" "999" ∧
    c10Ghost ∉ c10Board.get_completed_items_by_tag "x" :=
  ⟨⟨rfl, rfl⟩,
    (completed_items_characterization c10Board c10Ghost).1,
    ((completed_items_characterization c10Board c10Ghost).2 rfl rfl).1 100 0,
    ((completed_items_characterization c10Board c10Ghost).2 rfl rfl).2.1 "0" "999",
    ((completed_items_characterization c10Board c10Ghost).2 rfl rfl).2.2 "x"⟩

/-! ## Claim C7 -/

/-- Modelled from the spec's words, for refinement comparison: the average
`time_to_complete` in hours across ALL completed items that have a recorded
value (`none` only when no completed item has one) — the claim's reading, in
which a recorded value of zero contributes. -/
def avg_time_spec (b : KanbanBoard) : Option ℚ :=
  if ((b.items.filter isCompletedRecord).filter
      (fun it => it.time_to_complete.isSome)).filterMap
      (fun it => it.time_to_complete) = [] then none
  else some ((((((b.items.filter isCompletedRecord).filter
      (fun it => it.time_to_complete.isSome)).filterMap
      (fun it => it.time_to_complete)).map (fun n : Int => (n : ℚ))).sum /
    ((((b.items.filter isCompletedRecord).filter
      (fun it => it.time_to_complete.isSome)).filterMap
      (fun it => it.time_to_complete)).length : ℚ)) / 3600)

/-- The amended reading: the average in hours across completed items with a
non-zero recorded `time_to_complete` (Python truthiness drops 0 with None). -/
def avg_time_nonzero (b : KanbanBoard) : Option ℚ :=
  if ((b.items.filter isCompletedRecord).filter
      (fun it => optIntTruthy it.time_to_complete)).filterMap
      (fun it => it.time_to_complete) = [] then none
  else some ((((((b.items.filter isCompletedRecord).filter
      (fun it => optIntTruthy it.time_to_complete)).filterMap
      (fun it => it.time_to_complete)).map (fun n : Int => (n : ℚ))).sum /
    ((((b.items.filter isCompletedRecord).filter
      (fun it => optIntTruthy it.time_to_complete)).filterMap
      (fun it => it.time_to_complete)).length : ℚ)) / 3600)

def c7Item : KanbanItem :=
  { id := "c7", title := "zero seconds", status := .done, priority := .medium,
    due_date := none, description := "", created_at := "100",
    completed_at := some "200", time_to_complete := some 0, tags := [] }

def c7Board : KanbanBoard := { user_id := "scout", items := [c7Item] }

/-- Claim C7 counterexample: a completed item whose recorded `time_to_complete`
is 0 seconds is dropped by the truthiness filter, so the code reports the
no-average default (`none`) while the claimed average across all recorded
values is 0 hours. -/
theorem avg_excludes_zero_time :
    (c7Board.get_completion_stats 1000).map
      (fun st => st.avg_time_to_complete) = some none ∧
    avg_time_spec c7Board = some 0 ∧
    (none : Option ℚ) ≠ some 0 := by
  refine ⟨by decide, ?_, by simp⟩
  show (if ([(0 : Int)] : List Int) = [] then (none : Option ℚ)
      else some (((([(0 : Int)] : List Int).map (fun n : Int => (n : ℚ))).sum /
        (([(0 : Int)] : List Int).length : ℚ)) / 3600)) = some 0
  norm_num

/-- Claim C7 (corrected): the reported average is taken over the completed items
whose recorded `time_to_complete` is non-zero — the truthiness filter
`if item.time_to_complete` silently drops zero-second completions along with
missing values (boards with at most 10000 completed items, the query cap). -/
theorem avgTimeToComplete_perm {l1 l2 : List KanbanItem} (h : l1.Perm l2) :
    avgTimeToComplete l1 = avgTimeToComplete l2 := by
  have hp : ((l1.filter (fun it => optIntTruthy it.time_to_complete)).filterMap
      (fun it => it.time_to_complete)).Perm
      ((l2.filter (fun it => optIntTruthy it.time_to_complete)).filterMap
      (fun it => it.time_to_complete)) :=
    (h.filter _).filterMap _
  unfold avgTimeToComplete
  by_cases hc : (l1.filter (fun it => optIntTruthy it.time_to_complete)).filterMap
      (fun it => it.time_to_complete) = []
  · rw [if_pos hc, if_pos ((hc ▸ hp.symm).eq_nil)]
  · have hc2 : ¬ ((l2.filter (fun it => optIntTruthy it.time_to_complete)).filterMap
        (fun it => it.time_to_complete) = []) := by
      intro hnil
      exact hc ((hnil ▸ hp).eq_nil)
    rw [if_neg hc, if_neg hc2, (hp.map _).sum_eq, hp.length_eq]

theorem completionStatsOf_avg {now : Int} {completed : List KanbanItem}
    {st : CompletionStats} (h : completionStatsOf now completed = some st) :
    st.avg_time_to_complete = avgTimeToComplete completed := by
  unfold completionStatsOf at h
  split at h
  · next hemp =>
    simp only [Option.some.injEq] at h
    rw [← h, hemp]
    rfl
  · split at h
    · simp at h
    · simp only [Option.some.injEq] at h
      rw [← h]

theorem avg_time_over_nonzero_recorded (b : KanbanBoard) (now : Int)
    (st : CompletionStats)
    (hst : b.get_completion_stats now = some st)
    (hsize : (b.items.filter isCompletedRecord).length ≤ 10000) :
    st.avg_time_to_complete = avg_time_nonzero b := by
  have hfull : b.get_completed_items 10000 0 =
      insertionSort completedDesc (b.items.filter isCompletedRecord) := by
    unfold KanbanBoard.get_completed_items
    simp only [List.drop_zero]
    exact List.take_of_length_le (by rw [length_insertionSort]; exact hsize)
  have hperm : (b.get_completed_items 10000 0).Perm
      (b.items.filter isCompletedRecord) := by
    rw [hfull]
    exact insertionSort_perm _ _
  have h1 : st.avg_time_to_complete = avgTimeToComplete (b.get_completed_items 10000 0) :=
    completionStatsOf_avg hst
  rw [h1, avgTimeToComplete_perm hperm]
  rfl

def c7wItem : KanbanItem :=
  { id := "c7w", title := "no time", status := .done, priority := .low,
    due_date := none, description := "", created_at := "300",
    completed_at := some "400", time_to_complete := none, tags := [] }

def c7wBoard : KanbanBoard := { user_id := "scout", items := [c7wItem] }

def c7wStats : CompletionStats :=
  { total_completed := 1, completed_this_week := 1, completed_this_month := 1,
    by_priority := [("LOW", 1)], avg_time_to_complete := none }

/-- Witness for the corrected C7 at a concrete board. -/
theorem avg_time_over_nonzero_recorded_witness :
    (c7wBoard.get_completion_stats 500 = some c7wStats ∧
      (c7wBoard.items.filter isCompletedRecord).length ≤ 10000) ∧
    c7wStats.avg_time_to_complete = avg_time_nonzero c7wBoard :=
  ⟨⟨by decide, by decide⟩,
    avg_time_over_nonzero_recorded c7wBoard 500 c7wStats (by decide) (by decide)⟩

/-! ## Claim C1 -/

/-- One item of the given column holding top priority. -/
def topIn (s : Status) (it : KanbanItem) : Bool :=
  decide (it.status = s ∧ it.priority = Priority.top_priority)

/-- Number of top-priority items in a status column. -/
def countTop (b : KanbanBoard) (s : Status) : Nat := b.items.countP (topIn s)

/-- "At most one TopPriority item per status column". -/
def TopInvariant (b : KanbanBoard) : Prop := ∀ s, countTop b s ≤ 1

/-- All item ids of the board are distinct (ids are generated fresh and never
reassigned). -/
def NodupIds (b : KanbanBoard) : Prop := (b.items.map KanbanItem.id).Nodup

def c1Step1 : KanbanBoard × FS × KanbanItem :=
  KanbanBoard.add_item 1 "1" { user_id := "scout", items := [] } emptyFS
    "A" Priority.top_priority none ""

def c1Step2 : KanbanBoard × FS × KanbanItem :=
  KanbanBoard.add_item 2 "2" c1Step1.1 c1Step1.2.1 "B" Priority.top_priority none ""

/-- Claim C1 counterexample: adding item A (TopPriority, Todo) and then item B
(TopPriority, Todo) leaves BOTH at TopPriority in the todo column — `add_item`
does not run the demotion loop, so the column invariant is violated and A is
not demoted to High. -/
theorem add_item_keeps_two_top_priority :
    countTop c1Step2.1 Status.todo = 2 ∧
    (c1Step2.1.get_item "item_1").map (fun it => it.priority) =
      some Priority.top_priority ∧
    (c1Step2.1.get_item "item_2").map (fun it => it.priority) =
      some Priority.top_priority := by
  decide

theorem topIn_enfFun (pid : String) (col : Status) (x : KanbanItem) :
    topIn col (enfFun pid col x) = (decide (x.id = pid) && topIn col x) := by
  unfold enfFun topIn
  split
  · next hcond =>
    obtain ⟨hx1, hx2, hx3⟩ := hcond
    simp [hx1, hx2]
  · next hcond =>
    by_cases hid : x.id = pid
    · simp [hid]
    · have hrest : ¬ (x.status = col ∧ x.priority = Priority.top_priority) := by
        intro hh
        exact hcond ⟨hid, hh.1, hh.2⟩
      simp [hid, hrest]

theorem countP_enforceTop_col (pid : String) (col : Status) (l : List KanbanItem) :
    (enforceTop pid col l).countP (topIn col) =
      l.countP (fun x => decide (x.id = pid) && topIn col x) := by
  unfold enforceTop
  rw [List.countP_map]
  exact List.countP_congr (fun x _ => by
    simp only [Function.comp_apply, topIn_enfFun pid col x])

theorem topIn_enfFun_other (pid : String) {s col : Status} (hne : ¬ s = col)
    (x : KanbanItem) : topIn s (enfFun pid col x) = topIn s x := by
  unfold enfFun
  split
  · next hcond =>
    obtain ⟨hx1, hx2, hx3⟩ := hcond
    have hcs : ¬ (col = s) := fun h => hne h.symm
    unfold topIn
    simp [hx2, hx3, hcs]
  · rfl

theorem countP_enforceTop_other (pid : String) {s col : Status} (hne : ¬ s = col)
    (l : List KanbanItem) :
    (enforceTop pid col l).countP (topIn s) = l.countP (topIn s) := by
  unfold enforceTop
  rw [List.countP_map]
  exact List.countP_congr (fun x _ => by
    simp only [Function.comp_apply, topIn_enfFun_other pid hne x])

theorem countP_append_singleton (l : List KanbanItem) (x : KanbanItem)
    (p : KanbanItem → Bool) (hx : p x = false) :
    (l ++ [x]).countP p = l.countP p := by
  rw [List.countP_append, List.countP_cons, List.countP_nil, hx]
  simp

theorem nodup_tail_ids {b : KanbanBoard} {l1 l2 : List KanbanItem} {item : KanbanItem}
    (hitems : b.items = l1 ++ item :: l2) (hnd : NodupIds b) :
    ∀ x ∈ l2, x.id ≠ item.id := by
  unfold NodupIds at hnd
  rw [hitems, List.map_append, List.map_cons] at hnd
  have h2 := (List.nodup_append.mp hnd).2.1
  rw [List.nodup_cons] at h2
  intro x hx heq
  exact h2.1 (heq ▸ List.mem_map_of_mem KanbanItem.id hx)

theorem countTop_after_replace
    {items l1 l2 : List KanbanItem} {item item' : KanbanItem} {pid : String}
    (hitems : items = l1 ++ item :: l2)
    (hl1 : ∀ x ∈ l1, x.id ≠ pid) (hl2 : ∀ x ∈ l2, x.id ≠ pid)
    (hid : item.id = pid) (hid' : item'.id = pid)
    (hinv : ∀ s, items.countP (topIn s) ≤ 1) :
    ∀ s, ((if item'.priority = Priority.top_priority
        then enforceTop pid item'.status (replaceFirst items pid item')
        else replaceFirst items pid item').countP (topIn s)) ≤ 1 := by
  intro s
  have hrepl : replaceFirst items pid item' = l1 ++ item' :: l2 := by
    rw [hitems]
    exact replaceFirst_append l1 l2 item item' pid hl1 hid
  have horig := hinv s
  rw [hitems, List.countP_append, List.countP_cons] at horig
  split
  · next htop =>
    by_cases hcol : s = item'.status
    · rw [hrepl, hcol, countP_enforceTop_col, List.countP_append, List.countP_cons]
      have hz1 : l1.countP (fun x => decide (x.id = pid) && topIn item'.status x) = 0 :=
        List.countP_eq_zero.mpr (fun x hx => by simp [hl1 x hx])
      have hz2 : l2.countP (fun x => decide (x.id = pid) && topIn item'.status x) = 0 :=
        List.countP_eq_zero.mpr (fun x hx => by simp [hl2 x hx])
      have hp : (decide (item'.id = pid) && topIn item'.status item') = true := by
        simp [hid', topIn, htop]
      rw [hz1, hz2, hp]
      simp
    · rw [hrepl, countP_enforceTop_other _ hcol, List.countP_append, List.countP_cons]
      have hp : topIn s item' = false := by
        have hcs : ¬ (item'.status = s) := fun h => hcol h.symm
        simp [topIn, hcs]
      rw [hp]
      simp only [Bool.false_eq_true, if_false, Nat.add_zero]
      split at horig <;> omega
  · next hnotop =>
    rw [hrepl, List.countP_append, List.countP_cons]
    have hp : topIn s item' = false := by
      simp [topIn, hnotop]
    rw [hp]
    simp only [Bool.false_eq_true, if_false, Nat.add_zero]
    split at horig <;> omega

/-- Claim C1 (corrected): on a board with distinct ids satisfying the
invariant, every successful `update_item` and `move_item`, every `delete_item`,
and every `add_item` with a priority other than TopPriority preserve "at most
one TopPriority item per status column"; `add_item` itself does not enforce
the rule — adding a TopPriority item does not demote an existing holder (see
the counterexample: A and B both stay TopPriority). -/
theorem top_priority_invariant_preserved
    (b : KanbanBoard) (fs : FS)
    (hinv : TopInvariant b) (hnd : NodupIds b) :
    (∀ item_id updates b',
      okBoard (b.update_item fs item_id updates) = some b' → TopInvariant b') ∧
    (∀ now item_id new_status b',
      okBoard (b.move_item now fs item_id new_status) = some b' → TopInvariant b') ∧
    (∀ item_id, TopInvariant (b.delete_item fs item_id).1) ∧
    (∀ now_ms now_iso title priority due_date description,
      priority ≠ Priority.top_priority →
      TopInvariant (b.add_item now_ms now_iso fs title priority due_date description).1) := by
  refine ⟨?_, ?_, ?_, ?_⟩
  · -- update_item
    intro item_id updates b' hok
    unfold KanbanBoard.update_item at hok
    cases hget : b.get_item item_id with
    | none =>
      rw [hget] at hok
      simp [okBoard] at hok
    | some item =>
      rw [hget] at hok
      cases happ : applyFields item updates with
      | error e => simp [happ, okBoard] at hok
      | ok item' =>
        simp only [happ, okBoard, Option.some.injEq] at hok
        obtain ⟨hid, l1, l2, hitems, hl1⟩ := get_item_split hget
        have hl2 : ∀ x ∈ l2, x.id ≠ item_id := by
          intro x hx
          rw [← hid]
          exact nodup_tail_ids hitems hnd x hx
        have hid' : item'.id = item_id := (applyFields_id happ).trans hid
        intro s
        rw [← hok]
        exact countTop_after_replace hitems hl1 hl2 hid hid' hinv s
  · -- move_item
    intro now item_id new_status b' hok
    unfold KanbanBoard.move_item at hok
    split at hok
    · -- id not found
      simp [okBoard] at hok
    · next item hget =>
      split at hok
      · -- same-status early return
        simp only [okBoard, Option.some.injEq] at hok
        rw [← hok]
        exact hinv
      · split at hok
        · simp [okBoard] at hok
        · next item1 heq =>
          simp only [okBoard, Option.some.injEq] at hok
          obtain ⟨hid, l1, l2, hitems, hl1⟩ := get_item_split hget
          have hl2 : ∀ x ∈ l2, x.id ≠ item_id := by
            intro x hx
            rw [← hid]
            exact nodup_tail_ids hitems hnd x hx
          have hid1 : item1.id = item.id := by
            split at heq
            · split at heq
              · simp at heq
              · simp only [Except.ok.injEq] at heq
                rw [← heq]
            · simp only [Except.ok.injEq] at heq
              rw [← heq]
          have hid' : ({ item1 with status := new_status } : KanbanItem).id = item_id := by
            show item1.id = item_id
            rw [hid1, hid]
          intro s
          rw [← hok]
          exact countTop_after_replace hitems hl1 hl2 hid hid' hinv s
  · -- delete_item
    intro item_id s
    show ((b.items.filter (fun it => it.id ≠ item_id)).countP (topIn s)) ≤ 1
    have hle : ((b.items.filter (fun it => it.id ≠ item_id)).countP (topIn s)) ≤
        b.items.countP (topIn s) := by
      rw [List.countP_filter]
      exact List.countP_mono_left (fun x _ h => by
        simp only [Bool.and_eq_true] at h
        exact h.1)
    exact hle.trans (hinv s)
  · -- add_item with a non-top priority
    intro now_ms now_iso title priority due_date description hpr s
    show ((b.items ++ [_]).countP (topIn s)) ≤ 1
    rw [countP_append_singleton _ _ _ (by simp [topIn, hpr])]
    exact hinv s

def c1wItem : KanbanItem :=
  { id := "c1w", title := "t", status := .todo, priority := .top_priority,
    due_date := none, description := "", created_at := "10",
    completed_at := none, time_to_complete := none, tags := [] }

def c1wBoard : KanbanBoard := { user_id := "scout", items := [c1wItem] }

def c1wBoard' : KanbanBoard :=
  { user_id := "scout", items := [{ c1wItem with status := .in_progress }] }

/-- Witness for the corrected C1: a concrete top-priority item moved between
columns through `update_item`, with the invariant holding before and after. -/
theorem top_priority_invariant_preserved_witness :
    (TopInvariant c1wBoard ∧ NodupIds c1wBoard ∧
      okBoard (c1wBoard.update_item emptyFS "c1w" [ItemField.fstatus "in_progress"]) =
        some c1wBoard') ∧
    TopInvariant c1wBoard' :=
  ⟨⟨by unfold TopInvariant; decide, by unfold NodupIds; decide, by decide⟩,
    (top_priority_invariant_preserved c1wBoard emptyFS
        (by unfold TopInvariant; decide) (by unfold NodupIds; decide)).1
      "c1w" [ItemField.fstatus "in_progress"] c1wBoard' (by decide)⟩

end ScoutTDL
